import Mathlib

/-!
Shallow embedding of the cocotb-ahb protocol engine (the AHB interconnect
and subordinate models from `src/cocotb_AHB`), together with theorems
settling the specification claims about it.

The Python enumerations, command/response records and the stateful
subordinate/interconnect classes are translated into Lean structures and
pure state-transition functions.  Python `dict`-backed sparse memory is a
`Nat → Option Nat` map (reads of unwritten addresses return 0 via
`readByte`), Python `set`s are `Finset`s, exceptions are `Except String`,
and the Poisson wait-state samples drawn inside `process` are passed in as
explicit `draw` parameters.
-/

namespace CocotbAHB

/-- `HREADY` enumeration from `AHB_common/AHB_types.py`. -/
inductive HREADY where
  | WaitState
  | Working
deriving DecidableEq, Repr

/-- `HRESP` enumeration. -/
inductive HRESP where
  | Successful
  | Failed
deriving DecidableEq, Repr

/-- `HEXOKAY` enumeration. -/
inductive HEXOKAY where
  | Failed
  | Successful
deriving DecidableEq, Repr

/-- `HBURST` enumeration. -/
inductive HBURST where
  | Single
  | Incr
  | Wrap4
  | Incr4
  | Wrap8
  | Incr8
  | Wrap16
  | Incr16
deriving DecidableEq, Repr

/-- `HMASTLOCK` enumeration. -/
inductive HMASTLOCK where
  | UnLocked
  | Locked
deriving DecidableEq, Repr

/-- `HPROT` protection descriptor (a NamedTuple in the source; the `width`
field defaults to 7 and the boolean flags to the source's defaults). -/
structure HPROT where
  width : Nat := 7
  data : Bool := true
  privileged : Bool := true
  bufferable : Bool := false
  modifiable : Bool := false
  lookup : Bool := false
  allocate : Bool := false
  shareable : Bool := false
deriving DecidableEq, Repr

/-- `HSIZE` is an IntEnum 0..7 used only as the exponent in `2**hSize`;
we embed it as `Nat`. -/
abbrev HSIZE := Nat

/-- `HNONSEC` enumeration. -/
inductive HNONSEC where
  | Secure
  | NonSecure
deriving DecidableEq, Repr

/-- `HEXCL` enumeration. -/
inductive HEXCL where
  | NonExcl
  | Excl
deriving DecidableEq, Repr

/-- `HTRANS` enumeration. -/
inductive HTRANS where
  | Idle
  | Busy
  | NonSeq
  | Seq
deriving DecidableEq, Repr

/-- `HWRITE` enumeration. -/
inductive HWRITE where
  | Read
  | Write
deriving DecidableEq, Repr

/-- `HSEL` enumeration. -/
inductive HSEL where
  | NotSel
  | Sel
deriving DecidableEq, Repr

/-- `HREADYOUT` enumeration. -/
inductive HREADYOUT where
  | NotReady
  | Ready
deriving DecidableEq, Repr

/-- `MCMD` manager command record, with the source's field defaults. -/
structure MCMD where
  hAddr : Nat := 0
  hBurst : HBURST := HBURST.Incr
  hMastlock : HMASTLOCK := HMASTLOCK.UnLocked
  hProt : HPROT := {}
  hSize : HSIZE := 0
  hNonsec : HNONSEC := HNONSEC.Secure
  hExcl : HEXCL := HEXCL.NonExcl
  hMaster : Nat := 0
  hTrans : HTRANS := HTRANS.Idle
  hWstrb : Nat := 0
  hWrite : HWRITE := HWRITE.Read
deriving DecidableEq, Repr

/-- `ICMD` subordinate command record (`MCMD` plus the select flag). -/
structure ICMD where
  hAddr : Nat := 0
  hBurst : HBURST := HBURST.Incr
  hMastlock : HMASTLOCK := HMASTLOCK.UnLocked
  hProt : HPROT := {}
  hSize : HSIZE := 0
  hNonsec : HNONSEC := HNONSEC.Secure
  hExcl : HEXCL := HEXCL.NonExcl
  hMaster : Nat := 0
  hTrans : HTRANS := HTRANS.Idle
  hWstrb : Nat := 0
  hWrite : HWRITE := HWRITE.Read
  hSel : HSEL := HSEL.NotSel
deriving DecidableEq, Repr

/-- `IDATA` write-data record. -/
structure IDATA where
  hWData : Nat := 0
deriving DecidableEq, Repr

/-- `SRESP` subordinate response record with the source's defaults
(`SRESP()` is also `SubordinateInterface._reset_value`). -/
structure SRESP where
  hResp : HRESP := HRESP.Successful
  hReadyOut : HREADYOUT := HREADYOUT.NotReady
  hExOkay : HEXOKAY := HEXOKAY.Failed
  hRData : Nat := 0
deriving DecidableEq, Repr

/-- Reservation tuple of the exclusive monitor:
`(hAddr, hSize, hProt, hBurst, hMaster, hNonsec)` as built in
`SimMem1PSubordinate.exclusive_check` / `process_exclusive_transfer`. -/
abbrev TransId := Nat × HSIZE × HPROT × HBURST × Nat × HNONSEC

instance : DecidableEq TransId := fun a b => inferInstanceAs (Decidable (a = b))

/-- Address component of a reservation tuple. -/
def TransId.addr (t : TransId) : Nat := t.1

/-- Size component of a reservation tuple. -/
def TransId.size (t : TransId) : HSIZE := t.2.1

/-- Construction-time parameters of `SimMem1PSubordinate.__init__`
(feature switches and widths; the wait-state bounds). -/
structure MemCfg where
  length : Nat := 1024
  bus_byte_width : Nat := 4
  min_wait_cycles : Nat := 0
  max_wait_cycles : Nat := 0
  secure_transfer : Bool := false
  nonsec_read : Bool := false
  nonsec_write : Bool := false
  exclusive_transfers : Bool := false
  write_strobe : Bool := false
  burst : Bool := false
deriving Repr

/-- Mutable state of a `SimMem1PSubordinate`.  The Python `temp` dict that
feeds `SRESP(**self.temp)` is modeled as an `SRESP` record: a key missing
from the dict makes `SRESP` use its field default, which is exactly what a
record initialized to the defaults and never assigned at that field gives.
The misspelled write-only attribute `no_colision` assigned at line 297 of
the source is kept as its own field. -/
structure MemSt where
  mem : Nat → Option Nat := fun _ => none
  resp : SRESP := {}
  old_resp : SRESP := {}
  wait_cycles : Int := 0
  error : Bool := false
  wdata : Nat := 0
  process_wdata_next_cycle : Bool := false
  wcommand : ICMD := {}
  bursting : Bool := false
  bursting_addresses : List Nat := []
  incr_burst : Bool := false
  burst_size : HSIZE := 0
  burst_type : HBURST := HBURST.Single
  burst_write : HWRITE := HWRITE.Read
  burst_prot : HPROT := {}
  watched_addresses : Finset Nat := ∅
  transaction_set : Finset TransId := ∅
  failed_transaction_set : Finset TransId := ∅
  no_collision : Bool := true
  no_colision : Bool := true
  command : ICMD := {}
  input : ICMD := {}
  temp : SRESP := {}
  hready : HREADY := HREADY.WaitState

/-- State right after `SimMem1PSubordinate.__init__` (all the structure's
defaults are the constructor's initial values; burst-tracker scalars that
Python leaves unassigned until first use get arbitrary defaults). -/
def initMemSt (_cfg : MemCfg) : MemSt := {}

/-- `set_ready`. -/
def set_ready (st : MemSt) (h : HREADY) : MemSt := { st with hready := h }

/-- `is_ready`. -/
def is_ready (st : MemSt) : Bool := st.hready = HREADY.Working

/-- `put_data`. -/
def put_data (st : MemSt) (d : IDATA) : MemSt := { st with wdata := d.hWData }

/-- Byte read from the sparse memory dict: `self.mem[a]` when present,
else 0 (the convention of `memory_dump` and of the read path in `start`).
-/
def readByte (mem : Nat → Option Nat) (a : Nat) : Nat := (mem a).getD 0

/-- `do_reset` of `SimMem1PSubordinate` (lines 275-283). -/
def do_reset (cfg : MemCfg) (st : MemSt) : MemSt :=
  let st1 := { st with error := false, mem := fun _ => none, wait_cycles := 0 }
  let st2 :=
    if cfg.exclusive_transfers then
      { st1 with watched_addresses := ∅, transaction_set := ∅, no_collision := true }
    else st1
  { st2 with resp := {} }

/-- `process_secure_transfer` (lines 286-292). -/
def process_secure_transfer (cfg : MemCfg) (st : MemSt) : MemSt :=
  if cfg.secure_transfer then
    if st.command.hTrans ≠ HTRANS.Idle ∧ st.command.hTrans ≠ HTRANS.Busy ∧
       st.command.hNonsec = HNONSEC.NonSecure then
      if st.command.hWrite = HWRITE.Read ∧ ¬cfg.nonsec_read then
        { st with error := true }
      else if st.command.hWrite = HWRITE.Write ∧ ¬cfg.nonsec_write then
        { st with error := true }
      else st
    else st
  else st

/-- `process_exclusive_transfer` (lines 295-314).  Note line 297 of the
source assigns `self.no_colision = True` -- a misspelling of
`no_collision` that creates a separate, never-read attribute; the
embedding mirrors this by updating the `no_colision` field and leaving
`no_collision` untouched on that line. -/
def process_exclusive_transfer (cfg : MemCfg) (st : MemSt) : MemSt :=
  if cfg.exclusive_transfers then
    let st1 := { st with no_colision := true }
    if st1.command.hExcl = HEXCL.Excl then
      let tid : TransId := (st1.command.hAddr, st1.command.hSize, st1.command.hProt,
                           (if cfg.burst then st1.command.hBurst else HBURST.Single),
                           st1.command.hMaster, st1.command.hNonsec)
      match st1.command.hWrite with
      | HWRITE.Read =>
        { st1 with
          transaction_set := insert tid st1.transaction_set,
          watched_addresses :=
            (List.range (2 ^ st1.command.hSize)).foldl
              (fun w j => insert (st1.command.hAddr + j) w) st1.watched_addresses,
          temp := { st1.temp with hExOkay := HEXOKAY.Successful } }
      | HWRITE.Write =>
        if tid ∉ st1.transaction_set ∨ tid ∈ st1.failed_transaction_set then
          { st1 with
            failed_transaction_set := st1.failed_transaction_set.erase tid,
            no_collision := false }
        else
          { st1 with temp := { st1.temp with hExOkay := HEXOKAY.Successful } }
    else st1
  else st

/-- `exclusive_trans_colision_check` (lines 317-318). -/
def exclusive_trans_colision_check (st : MemSt) (_a : Nat) : Bool :=
  st.no_collision

/-- `exclusive_trans_colision_update` (lines 321-330): drop the touched
byte from `watched_addresses` and migrate every reservation whose byte
range covers it from `transaction_set` to `failed_transaction_set`.
(The source's `watched_addresses.remove` would raise on a missing
element, but every call site guards on membership.) -/
def exclusive_trans_colision_update (st : MemSt) (a : Nat) : MemSt :=
  let rm := st.transaction_set.filter (fun t => t.addr ≤ a ∧ a < t.addr + 2 ^ t.size)
  { st with
    watched_addresses := st.watched_addresses.erase a,
    failed_transaction_set := st.failed_transaction_set ∪ rm,
    transaction_set := st.transaction_set \ rm }

/-- One iteration of the `for i in range(2**hSize)` loop of
`process_write` (lines 337-348). -/
def process_write_step (cfg : MemCfg) (st : MemSt) (i : Nat) : MemSt :=
  let off := st.wcommand.hAddr % cfg.bus_byte_width
  let a := i + st.wcommand.hAddr
  let pair : MemSt × Bool :=
    if cfg.exclusive_transfers then
      (if a ∈ st.watched_addresses then exclusive_trans_colision_update st a else st,
       exclusive_trans_colision_check st a)
    else (st, true)
  let st1 := pair.1
  if pair.2 then
    let mask : Nat :=
      if cfg.write_strobe then
        (2 ^ 8 - 1) * (if st1.wcommand.hWstrb &&& (1 <<< (i + off)) ≠ 0 then 1 else 0)
      else 2 ^ 8 - 1
    if (st1.mem a).isNone ∨ mask ≠ 0 then
      let v := (st1.wdata >>> (8 * (i + off))) &&& mask
      { st1 with mem := Function.update st1.mem a (some v) }
    else st1
  else st1

/-- `process_write` (lines 333-348): clear the pending-write flag, then
apply the byte loop for the previously latched write command `wcommand`
with the latched data word `wdata`. -/
def process_write (cfg : MemCfg) (st : MemSt) : MemSt :=
  (List.range (2 ^ st.wcommand.hSize)).foldl (process_write_step cfg)
    { st with process_wdata_next_cycle := false }

/-- The burst-length dictionary of `_check_not_bursting` (line 145-147).
`Single`/`Incr` never reach the lookup (guarded by the call sites); they
map to 0 here where Python would raise `KeyError`. -/
def burstLenMap : HBURST → Nat
  | HBURST.Incr4 => 4
  | HBURST.Wrap4 => 4
  | HBURST.Incr8 => 8
  | HBURST.Wrap8 => 8
  | HBURST.Incr16 => 16
  | HBURST.Wrap16 => 16
  | _ => 0

/-- `_check_fix_incr` (lines 118-129), embedded with the source's
duplicated `hBurst == HBURST.Incr4` comparison kept verbatim: the second
branch (intended for `Incr8`) is dead, so `Incr8` falls through to the
`16 * 2**hSize` case. -/
def check_fix_incr (hAddr : Nat) (hBurst : HBURST) (hSize : HSIZE) :
    Except String Unit :=
  let first := hAddr / 1024
  let last :=
    if hBurst = HBURST.Incr4 then hAddr + 4 * 2 ^ hSize
    else if hBurst = HBURST.Incr4 then hAddr + 8 * 2 ^ hSize
    else hAddr + 16 * 2 ^ hSize
  if first ≠ last / 1024 then
    Except.error "Incrementing burst crosses 1KB boundry"
  else Except.ok ()

/-- The expected-address list a fixed-length burst precomputes in
`_check_not_bursting` (lines 148-154), before the source drops its first
element.  For Incr-N it is `[hAddr + i*2^hSize for i in range(N)]`; for
Wrap-N it is `[base + (offset + i*2^hSize) % mod for i in range(N)]` with
`mod = N * 2^hSize`, `base = hAddr & ~(mod - 1)` (written here as
`Nat.ldiff hAddr (mod - 1)`, the same bitwise and-not on non-negative
ints) and `offset = hAddr % mod`. -/
def bursting_addresses_full (hAddr : Nat) (hBurst : HBURST) (hSize : HSIZE) :
    List Nat :=
  let n := burstLenMap hBurst
  if hBurst = HBURST.Incr4 ∨ hBurst = HBURST.Incr8 ∨ hBurst = HBURST.Incr16 then
    (List.range n).map (fun i => hAddr + i * 2 ^ hSize)
  else
    let m := n * 2 ^ hSize
    let base := Nat.ldiff hAddr (m - 1)
    let offset := hAddr % m
    (List.range n).map (fun i => base + (offset + i * 2 ^ hSize) % m)

/-- `_check_not_bursting` (lines 131-161). -/
def check_not_bursting (st : MemSt) (hAddr : Nat) (hBurst : HBURST)
    (hSize : HSIZE) (hWrite : HWRITE) (hProt : HPROT) :
    Except String MemSt :=
  match (if hBurst = HBURST.Incr4 ∨ hBurst = HBURST.Incr8 ∨ hBurst = HBURST.Incr16
         then check_fix_incr hAddr hBurst hSize else Except.ok ()) with
  | Except.error e => Except.error e
  | Except.ok _ =>
    if hBurst ≠ HBURST.Single then
      let st1 := { st with bursting := true, bursting_addresses := ([] : List Nat),
                           incr_burst := false, burst_size := hSize,
                           burst_type := hBurst, burst_write := hWrite,
                           burst_prot := hProt }
      if hBurst ≠ HBURST.Incr then
        Except.ok { st1 with
          bursting_addresses := (bursting_addresses_full hAddr hBurst hSize).drop 1 }
      else
        Except.ok { st1 with incr_burst := true,
                             bursting_addresses := [hAddr + 2 ^ hSize] }
    else Except.ok { st with bursting := false }

/-- `burst_check` (lines 163-192).  The source's self-call on an Idle or
NonSeq beat inside a burst (after setting `bursting = False`) is unfolded:
a NonSeq re-enters `_check_not_bursting`, an Idle falls through every
branch and only clears `bursting`. -/
def burst_check (st : MemSt) (hAddr : Nat) (hBurst : HBURST) (hSize : HSIZE)
    (hTrans : HTRANS) (hWrite : HWRITE) (hProt : HPROT) :
    Except String MemSt :=
  if ¬st.bursting ∧ hTrans = HTRANS.NonSeq then
    check_not_bursting st hAddr hBurst hSize hWrite hProt
  else if st.bursting then
    if hTrans = HTRANS.Idle ∨ hTrans = HTRANS.NonSeq then
      if hTrans = HTRANS.NonSeq then
        check_not_bursting { st with bursting := false } hAddr hBurst hSize hWrite hProt
      else Except.ok { st with bursting := false }
    else
      if (match st.bursting_addresses with
          | [] => false
          | a0 :: _ => hAddr ≠ a0 : Bool) then
        Except.error "Incorrect burst address"
      else if hSize ≠ st.burst_size then
        Except.error "Incorrect burst size"
      else if hBurst ≠ st.burst_type then
        Except.error "Incorrect burst type"
      else if hWrite ≠ st.burst_write then
        Except.error "Incorrect burst operation"
      else if hProt ≠ st.burst_prot then
        Except.error "Incorrect burst protection"
      else if hTrans = HTRANS.Seq then
        if st.incr_burst then
          -- `self.bursting_addresses[0] = hAddr + 2**hSize`; the list is
          -- the singleton next pointer in this mode
          Except.ok { st with bursting_addresses :=
            (match st.bursting_addresses with
             | [] => []
             | _ :: rest => (hAddr + 2 ^ hSize) :: rest) }
        else
          let l := st.bursting_addresses.drop 1
          Except.ok { st with bursting_addresses := l,
                              bursting := (if l = [] then false else st.bursting) }
      else Except.ok st
  else if hTrans = HTRANS.Seq ∨ hTrans = HTRANS.Busy then
    Except.error "Seq or Busy in no burst context"
  else Except.ok st

/-- `exclusive_check` (lines 195-209); raises only, mutates nothing. -/
def exclusive_check (cfg : MemCfg) (st : MemSt) (hAddr : Nat) (hSize : HSIZE)
    (hProt : HPROT) (hBurst : HBURST) (hMaster : Nat) (hNonsec : HNONSEC)
    (hExcl : HEXCL) (hTrans : HTRANS) (hWrite : HWRITE) :
    Except String Unit :=
  let tid : TransId := (hAddr, hSize, hProt, hBurst, hMaster, hNonsec)
  if hExcl = HEXCL.Excl then
    if cfg.burst ∧ hBurst ≠ HBURST.Single ∧ hBurst ≠ HBURST.Incr then
      Except.error "Exclusive transfer must be single beat"
    else if hTrans = HTRANS.Busy then
      Except.error "Exclusive transfer cannot have BUSY command"
    else if hWrite = HWRITE.Read ∧ tid ∈ st.transaction_set then
      Except.error "Exclusive read after exclusive read is not permited"
    else Except.ok ()
  else Except.ok ()

/-- `put_cmd` (lines 212-249).  The `temp` dict copies only the fields the
feature switches enable; the rest of the latched `ICMD` takes the record
defaults.  Note the source computes `temp['hAddr'] %= self.length` after
`self.input` was already built and then latches `ICMD(*self.input)`, so
the modular reduction is dead and the latched command keeps the raw
address; the embedding reproduces that. -/
def put_cmd (cfg : MemCfg) (st : MemSt) (cmd : ICMD) : Except String MemSt :=
  let inp : ICMD :=
    { hAddr := cmd.hAddr, hSize := cmd.hSize, hTrans := cmd.hTrans,
      hWrite := cmd.hWrite, hSel := cmd.hSel, hProt := cmd.hProt,
      hBurst := (if cfg.burst then cmd.hBurst else HBURST.Incr),
      hNonsec := (if cfg.secure_transfer then cmd.hNonsec else HNONSEC.Secure),
      hExcl := (if cfg.exclusive_transfers then cmd.hExcl else HEXCL.NonExcl),
      hMaster := (if cfg.exclusive_transfers then cmd.hMaster else 0),
      hWstrb := (if cfg.write_strobe then cmd.hWstrb else 0),
      hMastlock := HMASTLOCK.UnLocked }
  let st0 := { st with input := inp }
  if ¬is_ready st0 then Except.ok st0
  else
    let st1 := { st0 with command := inp }
    if cmd.hSel = HSEL.Sel then
      if cmd.hAddr % 2 ^ cmd.hSize ≠ 0 then
        Except.error "Unaligned address is not permited"
      else if cfg.bus_byte_width < 2 ^ cmd.hSize then
        Except.error "HSIZE greater then bus width"
      else
        match (if cfg.burst then
                 burst_check st1 st1.command.hAddr cmd.hBurst cmd.hSize
                   cmd.hTrans cmd.hWrite cmd.hProt
               else Except.ok st1) with
        | Except.error e => Except.error e
        | Except.ok st2 =>
          match (if cfg.exclusive_transfers then
                   exclusive_check cfg st2 st2.command.hAddr cmd.hSize cmd.hProt
                     (if cfg.burst then cmd.hBurst else HBURST.Single)
                     cmd.hMaster cmd.hNonsec cmd.hExcl cmd.hTrans cmd.hWrite
                 else Except.ok ()) with
          | Except.error e => Except.error e
          | Except.ok _ => Except.ok st2
    else Except.ok st1

/-- The read-data composition of `start` (lines 393-398): OR each stored
byte of `[hAddr, hAddr + 2^hSize)` into the word at lane offset
`8 * (i + hAddr % bus_byte_width)`. -/
def compose_read (cfg : MemCfg) (cmd : ICMD) (mem : Nat → Option Nat) : Nat :=
  let off := cmd.hAddr % cfg.bus_byte_width
  (List.range (2 ^ cmd.hSize)).foldl
    (fun acc i => acc ||| (readByte mem (i + cmd.hAddr) <<< (8 * (i + off)))) 0

/-- `process` (lines 351-368).  `draw1` and `draw2` are the two Poisson
samples the source draws from `random_gen`; the code clamps them with
`min(draw, max_wait_cycles)`. -/
def process (cfg : MemCfg) (draw1 draw2 : Nat) (st : MemSt) : MemSt :=
  let st1 := { st with error := false,
                       wait_cycles := (min draw1 cfg.max_wait_cycles : Nat),
                       temp := { st.temp with hRData := 0,
                                              hResp := HRESP.Successful,
                                              hReadyOut := HREADYOUT.NotReady } }
  let st2 :=
    if cfg.exclusive_transfers then
      { st1 with temp := { st1.temp with hExOkay := HEXOKAY.Failed } }
    else st1
  let st3 := process_secure_transfer cfg st2
  if st3.error then st3
  else
    let st4 := process_exclusive_transfer cfg st3
    if st4.command.hTrans = HTRANS.Idle ∨ st4.command.hTrans = HTRANS.Busy then
      { st4 with wait_cycles := 0 }
    else if cfg.burst ∧ st4.command.hTrans = HTRANS.Seq then
      { st4 with wait_cycles := (min draw2 cfg.max_wait_cycles : Nat) }
    else st4

/-- One iteration of the `while True` loop of `start` (lines 374-409),
with the sampled reset signal passed in as `isReset` and the Poisson
samples as `draw1`/`draw2`.  `self.resp = SRESP(**self.temp)` and the
trailing `self.wait_cycles -= 1` close the cycle. -/
def mem_cycle (cfg : MemCfg) (draw1 draw2 : Nat) (isReset : Bool)
    (st : MemSt) : MemSt :=
  let st0 := { st with temp := { st.temp with hRData := 0 },
                       old_resp := st.resp }
  let st1 :=
    if isReset then do_reset cfg st0
    else if is_ready st0 ∧ st0.command.hSel = HSEL.Sel then
      let a := if st0.process_wdata_next_cycle then process_write cfg st0 else st0
      let b := process cfg draw1 draw2 a
      if b.error then
        { b with wait_cycles := 1,
                 temp := { b.temp with hRData := 0, hResp := HRESP.Failed } }
      else b
    else st0
  let st2 :=
    if ¬isReset ∧ st1.wait_cycles = 0 ∧ ¬st1.error ∧
       st1.command.hTrans ≠ HTRANS.Idle ∧ st1.command.hTrans ≠ HTRANS.Busy then
      if st1.command.hWrite = HWRITE.Read then
        { st1 with temp := { st1.temp with
            hRData := compose_read cfg st1.command st1.mem } }
      else
        { st1 with process_wdata_next_cycle := true, wcommand := st1.command }
    else st1
  let st3 :=
    if st2.wait_cycles = 0 then
      { st2 with temp := { st2.temp with hReadyOut := HREADYOUT.Ready } }
    else st2
  { st3 with resp := st3.temp, wait_cycles := st3.wait_cycles - 1 }

/-- Mutable state of a `SimDefaultSubordinate` (its burst-tracker
attributes are declared but never used). -/
structure DefSt where
  resp : SRESP := {}
  old_resp : SRESP := {}
  wait_cycles : Int := 0
  error : Bool := false
  input : ICMD := {}
  command : ICMD := {}
  wdata : Nat := 0
  temp : SRESP := {}
  hready : HREADY := HREADY.WaitState

/-- `SimDefaultSubordinate.do_reset` (lines 109-112). -/
def default_do_reset (st : DefSt) : DefSt :=
  { st with error := false, wait_cycles := 0, resp := {} }

/-- `SimDefaultSubordinate.process` (lines 115-123): Idle/Busy get a
zero-wait Successful, anything else a Failed after one wait cycle. -/
def default_process (st : DefSt) : DefSt :=
  let st1 := { st with error := false,
                       temp := { st.temp with hRData := 0,
                                              hResp := HRESP.Successful } }
  if st1.command.hTrans = HTRANS.Idle ∨ st1.command.hTrans = HTRANS.Busy then
    { st1 with wait_cycles := 0 }
  else
    { st1 with temp := { st1.temp with hResp := HRESP.Failed },
               wait_cycles := 1 }

/-- One iteration of `SimDefaultSubordinate.start`'s loop (lines
130-146). -/
def default_cycle (isReset : Bool) (st : DefSt) : DefSt :=
  let st0 := { st with old_resp := st.resp }
  let st1 :=
    if isReset then default_do_reset st0
    else if st0.hready = HREADY.Working ∧ st0.command.hSel = HSEL.Sel then
      default_process st0
    else st0
  let st2 :=
    if st1.wait_cycles = 0 then
      { st1 with temp := { st1.temp with hReadyOut := HREADYOUT.Ready } }
    else
      { st1 with temp := { st1.temp with hReadyOut := HREADYOUT.NotReady } }
  { st2 with resp := st2.temp, wait_cycles := st2.wait_cycles - 1 }

/-- `SimInterconnect.change_manager_id` (lines 143-149): rebuild the
command with `hMaster = m_id << 4 | cmd.hMaster`, all other fields
copied. -/
def change_manager_id (m_id : Nat) (cmd : MCMD) : MCMD :=
  { hAddr := cmd.hAddr, hBurst := cmd.hBurst, hMastlock := cmd.hMastlock,
    hProt := cmd.hProt, hSize := cmd.hSize, hNonsec := cmd.hNonsec,
    hExcl := cmd.hExcl, hMaster := m_id <<< 4 ||| cmd.hMaster,
    hTrans := cmd.hTrans, hWstrb := cmd.hWstrb, hWrite := cmd.hWrite }

/-- `ICMD(*cmd, HSEL.Sel)` from `SimInterconnect.proc_cmd` (line 228):
the forwarded subordinate command is the manager command with the select
flag set. -/
def mcmd_to_sel_icmd (cmd : MCMD) : ICMD :=
  { hAddr := cmd.hAddr, hBurst := cmd.hBurst, hMastlock := cmd.hMastlock,
    hProt := cmd.hProt, hSize := cmd.hSize, hNonsec := cmd.hNonsec,
    hExcl := cmd.hExcl, hMaster := cmd.hMaster, hTrans := cmd.hTrans,
    hWstrb := cmd.hWstrb, hWrite := cmd.hWrite, hSel := HSEL.Sel }

/-- The command the interconnect enqueues for a ready manager in
`proc_cmd` (lines 223-230): master-id tagging then select. -/
def proc_cmd_forwarded (m_id : Nat) (cmd : MCMD) : ICMD :=
  mcmd_to_sel_icmd (change_manager_id m_id cmd)

/-- Configuration for the concrete executions below: 1 KiB, 32-bit bus,
exclusives enabled, zero wait states (the Poisson draws are 0 anyway). -/
def xcfg : MemCfg :=
  { length := 1024, bus_byte_width := 4, min_wait_cycles := 0,
    max_wait_cycles := 0, exclusive_transfers := true }

/-- Exclusive write with no prior reservation (its reservation check
fails and clears `no_collision`). -/
def c1_cmd_w1 : ICMD :=
  { hAddr := 0, hSize := 0, hTrans := HTRANS.NonSeq, hWrite := HWRITE.Write,
    hExcl := HEXCL.Excl, hSel := HSEL.Sel }

/-- Ordinary non-exclusive byte write of the following cycle. -/
def c1_cmd_w2 : ICMD :=
  { hAddr := 0, hSize := 0, hTrans := HTRANS.NonSeq, hWrite := HWRITE.Write,
    hSel := HSEL.Sel }

/-- Selected Idle command used to let a pending write apply. -/
def c1_cmd_idle : ICMD := { hTrans := HTRANS.Idle, hSel := HSEL.Sel }

/-- Three bus cycles on a fresh exclusive-enabled subordinate: a failing
exclusive write, then a plain non-exclusive write of `0xAB` to address 0,
then an Idle cycle during which the plain write's `process_write` runs. -/
def c1_exec : Except String MemSt :=
  (put_cmd xcfg (set_ready (initMemSt xcfg) HREADY.Working) c1_cmd_w1).bind fun s1 =>
  (put_cmd xcfg (mem_cycle xcfg 0 0 false s1) c1_cmd_w2).bind fun s2 =>
  (put_cmd xcfg (mem_cycle xcfg 0 0 false (put_data s2 { hWData := 171 }))
      c1_cmd_idle).bind fun s3 =>
  Except.ok (mem_cycle xcfg 0 0 false s3)

/-- Exclusive halfword read at 0 (reserves bytes 0 and 1). -/
def c7_cmd_r : ICMD :=
  { hAddr := 0, hSize := 1, hTrans := HTRANS.NonSeq, hWrite := HWRITE.Read,
    hExcl := HEXCL.Excl, hSel := HSEL.Sel }

/-- Plain byte write at 0 (collides with one byte of the reservation). -/
def c7_cmd_w : ICMD :=
  { hAddr := 0, hSize := 0, hTrans := HTRANS.NonSeq, hWrite := HWRITE.Write,
    hSel := HSEL.Sel }

/-- Selected Idle command. -/
def c7_cmd_idle : ICMD := { hTrans := HTRANS.Idle, hSel := HSEL.Sel }

/-- Three bus cycles: exclusive halfword read at 0, then a plain byte
write at 0, then an Idle cycle during which the write applies and the
collision update runs. -/
def c7_exec : Except String MemSt :=
  (put_cmd xcfg (set_ready (initMemSt xcfg) HREADY.Working) c7_cmd_r).bind fun s1 =>
  (put_cmd xcfg (mem_cycle xcfg 0 0 false s1) c7_cmd_w).bind fun s2 =>
  (put_cmd xcfg (mem_cycle xcfg 0 0 false (put_data s2 { hWData := 85 }))
      c7_cmd_idle).bind fun s3 =>
  Except.ok (mem_cycle xcfg 0 0 false s3)

/-- The state after latching the exclusive read `c7_cmd_r` on a fresh
ready subordinate. -/
def c7w_s1 : MemSt :=
  (put_cmd xcfg (set_ready (initMemSt xcfg) HREADY.Working) c7_cmd_r).toOption.getD
    (initMemSt xcfg)

/-- States of the memory subordinate reachable from construction by its
operations (`put_cmd` steps only when they return without raising). -/
inductive Reach (cfg : MemCfg) : MemSt → Prop where
  | init : Reach cfg (initMemSt cfg)
  | ready_step {st : MemSt} {h : HREADY} :
      Reach cfg st → Reach cfg (set_ready st h)
  | data_step {st : MemSt} {d : IDATA} :
      Reach cfg st → Reach cfg (put_data st d)
  | cmd_step {st st' : MemSt} {c : ICMD} :
      Reach cfg st → put_cmd cfg st c = Except.ok st' → Reach cfg st'
  | process_step {st : MemSt} {d1 d2 : Nat} :
      Reach cfg st → Reach cfg (process cfg d1 d2 st)
  | write_step {st : MemSt} :
      Reach cfg st → Reach cfg (process_write cfg st)
  | cycle_step {st : MemSt} {d1 d2 : Nat} {r : Bool} :
      Reach cfg st → Reach cfg (mem_cycle cfg d1 d2 r st)
  | reset_step {st : MemSt} :
      Reach cfg st → Reach cfg (do_reset cfg st)

/-- Forward half of the reverse-index invariant: every reservation
tuple's byte range is contained in the watched set. -/
def reservedCovered (ts : Finset TransId) (w : Finset Nat) : Prop :=
  ∀ t ∈ ts, ∀ a : Nat, t.addr ≤ a → a < t.addr + 2 ^ t.size → a ∈ w

/-- The invariant read off a subordinate state. -/
def reservedCoveredSt (st : MemSt) : Prop :=
  reservedCovered st.transaction_set st.watched_addresses

/-! ## Theorems on the claims -/

/-- C9 counterexample: the all-defaults command records have `hWstrb = 0`,
not the all-ones mask `2^bus_byte_width - 1` (shown here for the smallest
legal bus byte width, 1, whose mask would be 1; the default is 0 for
every width). -/
theorem c9_wstrb_default_counterexample :
    ({} : MCMD).hWstrb = 0 ∧ ({} : ICMD).hWstrb = 0 ∧
    ({} : MCMD).hWstrb ≠ 2 ^ 1 - 1 ∧ ({} : ICMD).hWstrb ≠ 2 ^ 1 - 1 := by
  refine ⟨rfl, rfl, by decide, by decide⟩

/-- C9 amended: the all-defaults `MCMD`/`ICMD` (the reset form) has
`hWstrb = 0`; the all-ones strobe mask is supplied explicitly by the
managers when they issue writes, not by the record default. -/
theorem c9_wstrb_default_amended :
    ({} : MCMD).hWstrb = 0 ∧ ({} : ICMD).hWstrb = 0 := ⟨rfl, rfl⟩

/-- C5 counterexample: `change_manager_id` does not mask the manager's
`hMaster` to its low nibble.  With interconnect id 0 and an incoming
`hMaster = 16`, the forwarded id is 16, while the claimed formula
`(id << 4) | (hMaster & 0xF)` gives 0. -/
theorem c5_master_id_counterexample :
    (change_manager_id 0 { hMaster := 16 }).hMaster = 16 ∧
    (change_manager_id 0 { hMaster := 16 }).hMaster ≠ 0 <<< 4 ||| (16 &&& 15) := by
  refine ⟨rfl, by decide⟩

/-- C5 amended: before enqueueing a ready manager's command the
interconnect rewrites `hMaster` to `(interconnect_id << 4) | hMaster`
(no `& 0xF` on the low nibble), leaves every other field unchanged and
sets `hSel = Sel`; when the manager's own `hMaster` fits in the low
nibble (`< 16`) this agrees with the claimed formula
`(id << 4) | (hMaster & 0xF)`. -/
theorem c5_master_id_tagging_amended (m_id : Nat) (cmd : MCMD) :
    (change_manager_id m_id cmd).hMaster = m_id <<< 4 ||| cmd.hMaster ∧
    (cmd.hMaster < 16 →
      (change_manager_id m_id cmd).hMaster = m_id <<< 4 ||| (cmd.hMaster &&& 15)) ∧
    (change_manager_id m_id cmd).hAddr = cmd.hAddr ∧
    (change_manager_id m_id cmd).hBurst = cmd.hBurst ∧
    (change_manager_id m_id cmd).hMastlock = cmd.hMastlock ∧
    (change_manager_id m_id cmd).hProt = cmd.hProt ∧
    (change_manager_id m_id cmd).hSize = cmd.hSize ∧
    (change_manager_id m_id cmd).hNonsec = cmd.hNonsec ∧
    (change_manager_id m_id cmd).hExcl = cmd.hExcl ∧
    (change_manager_id m_id cmd).hTrans = cmd.hTrans ∧
    (change_manager_id m_id cmd).hWstrb = cmd.hWstrb ∧
    (change_manager_id m_id cmd).hWrite = cmd.hWrite ∧
    (proc_cmd_forwarded m_id cmd).hSel = HSEL.Sel ∧
    (proc_cmd_forwarded m_id cmd).hMaster = m_id <<< 4 ||| cmd.hMaster := by
  have hmask : ∀ x : Nat, x < 16 → x &&& 15 = x := by
    intro x hx
    have h15 : (15 : Nat) = 2 ^ 4 - 1 := by norm_num
    rw [h15, Nat.and_pow_two_sub_one_eq_mod]
    exact Nat.mod_eq_of_lt hx
  refine ⟨rfl, ?_, rfl, rfl, rfl, rfl, rfl, rfl, rfl, rfl, rfl, rfl, rfl, rfl⟩
  intro h
  rw [hmask cmd.hMaster h]
  rfl

/-- C5 amended, witness: the low-nibble agreement at interconnect id 3 and
manager sub-id 5. -/
theorem c5_master_id_tagging_witness :
    (change_manager_id 3 { hMaster := 5 }).hMaster = 3 <<< 4 ||| (5 &&& 15) :=
  (c5_master_id_tagging_amended 3 { hMaster := 5 }).2.1 (by decide)

/-- C10: `do_reset` of the memory subordinate with exclusives enabled
clears the memory, the wait counter, the watched set and the reservation
set, resets the collision flag and the response latch, and leaves the
failed-reservation set exactly as it was. -/
theorem c10_reset_frames_failed_set (cfg : MemCfg) (st : MemSt)
    (hx : cfg.exclusive_transfers = true) :
    (do_reset cfg st).mem = (fun _ => none) ∧
    (do_reset cfg st).wait_cycles = 0 ∧
    (do_reset cfg st).error = false ∧
    (do_reset cfg st).watched_addresses = ∅ ∧
    (do_reset cfg st).transaction_set = ∅ ∧
    (do_reset cfg st).no_collision = true ∧
    (do_reset cfg st).resp = {} ∧
    (do_reset cfg st).failed_transaction_set = st.failed_transaction_set := by
  simp [do_reset, hx]

/-- C10 witness: a concrete reset with a non-empty failed-reservation set
keeps that set. -/
theorem c10_reset_frames_failed_set_witness :
    (do_reset { exclusive_transfers := true }
        { failed_transaction_set :=
            {(5, 0, {}, HBURST.Single, 0, HNONSEC.Secure)} }).failed_transaction_set =
      {(5, 0, ({} : HPROT), HBURST.Single, 0, HNONSEC.Secure)} :=
  (c10_reset_frames_failed_set { exclusive_transfers := true }
    { failed_transaction_set :=
        {(5, 0, {}, HBURST.Single, 0, HNONSEC.Secure)} } rfl).2.2.2.2.2.2.2

/-- Helper: a secure-filter denial inside `start`'s loop.  With the
secure filter on, a selected non-Idle/Busy NonSecure command whose
direction is disabled makes `process_secure_transfer` set `error`, and
the cycle latches `hResp = Failed` with one wait cycle (`hReadyOut`
still `NotReady`), leaves the memory untouched and schedules no write. -/
theorem secure_denied_first_cycle (cfg : MemCfg) (st : MemSt) (d1 d2 : Nat)
    (hsec : cfg.secure_transfer = true)
    (hrdy : st.hready = HREADY.Working)
    (hsel : st.command.hSel = HSEL.Sel)
    (ht1 : st.command.hTrans ≠ HTRANS.Idle)
    (ht2 : st.command.hTrans ≠ HTRANS.Busy)
    (hns : st.command.hNonsec = HNONSEC.NonSecure)
    (hdir : (st.command.hWrite = HWRITE.Read ∧ cfg.nonsec_read = false) ∨
            (st.command.hWrite = HWRITE.Write ∧ cfg.nonsec_write = false))
    (hpw : st.process_wdata_next_cycle = false) :
    (mem_cycle cfg d1 d2 false st).resp.hResp = HRESP.Failed ∧
    (mem_cycle cfg d1 d2 false st).resp.hReadyOut = HREADYOUT.NotReady ∧
    (mem_cycle cfg d1 d2 false st).mem = st.mem ∧
    (mem_cycle cfg d1 d2 false st).process_wdata_next_cycle = false ∧
    (mem_cycle cfg d1 d2 false st).wait_cycles = 0 ∧
    (mem_cycle cfg d1 d2 false st).error = true ∧
    (mem_cycle cfg d1 d2 false st).temp.hResp = HRESP.Failed := by
  by_cases hex : cfg.exclusive_transfers = true <;>
  rcases hdir with ⟨hw, hflag⟩ | ⟨hw, hflag⟩ <;>
    simp [mem_cycle, process, process_secure_transfer, is_ready,
          hsec, hrdy, hsel, ht1, ht2, hns, hw, hflag, hpw, hex]

/-- Helper: a cycle in which the subordinate is held not-ready after an
error finished its single wait cycle re-emits the Failed response with
`hReadyOut = Ready` (the second half of the two-cycle error
termination). -/
theorem error_second_cycle (cfg : MemCfg) (st : MemSt) (d1 d2 : Nat)
    (hrdy : st.hready = HREADY.WaitState)
    (herr : st.error = true)
    (hw : st.wait_cycles = 0)
    (htemp : st.temp.hResp = HRESP.Failed) :
    (mem_cycle cfg d1 d2 false st).resp.hResp = HRESP.Failed ∧
    (mem_cycle cfg d1 d2 false st).resp.hReadyOut = HREADYOUT.Ready := by
  simp [mem_cycle, is_ready, hrdy, herr, hw, htemp]

/-- C6 (P7, secure filter): with the secure filter enabled and the
matching non-secure direction disabled, a latched, selected, non-Idle/Busy
NonSecure command produces `hResp = Failed`, leaves the memory store
unchanged and schedules no write application. -/
theorem c6_secure_filter (cfg : MemCfg) (st : MemSt) (d1 d2 : Nat)
    (hsec : cfg.secure_transfer = true)
    (hrdy : st.hready = HREADY.Working)
    (hsel : st.command.hSel = HSEL.Sel)
    (ht1 : st.command.hTrans ≠ HTRANS.Idle)
    (ht2 : st.command.hTrans ≠ HTRANS.Busy)
    (hns : st.command.hNonsec = HNONSEC.NonSecure)
    (hdir : (st.command.hWrite = HWRITE.Read ∧ cfg.nonsec_read = false) ∨
            (st.command.hWrite = HWRITE.Write ∧ cfg.nonsec_write = false))
    (hpw : st.process_wdata_next_cycle = false) :
    (mem_cycle cfg d1 d2 false st).resp.hResp = HRESP.Failed ∧
    (mem_cycle cfg d1 d2 false st).mem = st.mem ∧
    (mem_cycle cfg d1 d2 false st).process_wdata_next_cycle = false := by
  obtain ⟨h1, _, h3, h4, _⟩ :=
    secure_denied_first_cycle cfg st d1 d2 hsec hrdy hsel ht1 ht2 hns hdir hpw
  exact ⟨h1, h3, h4⟩

/-- C6 witness: a concrete non-secure read denied by a subordinate with
`nonsec_read = false`. -/
theorem c6_secure_filter_witness :
    (mem_cycle { secure_transfer := true } 0 0 false
        { command := { hTrans := HTRANS.NonSeq, hNonsec := HNONSEC.NonSecure,
                       hSel := HSEL.Sel },
          hready := HREADY.Working }).resp.hResp = HRESP.Failed :=
  (c6_secure_filter { secure_transfer := true }
    { command := { hTrans := HTRANS.NonSeq, hNonsec := HNONSEC.NonSecure,
                   hSel := HSEL.Sel },
      hready := HREADY.Working } 0 0 rfl rfl rfl (by decide) (by decide) rfl
    (Or.inl ⟨rfl, rfl⟩) rfl).1

/-- C8: two-cycle error termination.  (a) The default subordinate answers
any selected NonSeq/Seq with `Failed` and `hReadyOut = NotReady`, and on
the immediately following (not-ready) cycle with `Failed` and
`hReadyOut = Ready`; (b) for Idle/Busy it answers `Successful` and
`Ready` in the same cycle with zero wait cycles; (c) the memory
subordinate's secure denial likewise shows `Failed`+`NotReady` then
`Failed`+`Ready`. -/
theorem c8_two_cycle_error_termination
    (dst dstIB : DefSt) (cfg : MemCfg) (mst : MemSt) (d1 d2 d3 d4 : Nat)
    (hdr : dst.hready = HREADY.Working) (hds : dst.command.hSel = HSEL.Sel)
    (hdt1 : dst.command.hTrans ≠ HTRANS.Idle)
    (hdt2 : dst.command.hTrans ≠ HTRANS.Busy)
    (hir : dstIB.hready = HREADY.Working) (his : dstIB.command.hSel = HSEL.Sel)
    (hit : dstIB.command.hTrans = HTRANS.Idle ∨ dstIB.command.hTrans = HTRANS.Busy)
    (hsec : cfg.secure_transfer = true)
    (hmr : mst.hready = HREADY.Working)
    (hms : mst.command.hSel = HSEL.Sel)
    (hmt1 : mst.command.hTrans ≠ HTRANS.Idle)
    (hmt2 : mst.command.hTrans ≠ HTRANS.Busy)
    (hmn : mst.command.hNonsec = HNONSEC.NonSecure)
    (hmdir : (mst.command.hWrite = HWRITE.Read ∧ cfg.nonsec_read = false) ∨
             (mst.command.hWrite = HWRITE.Write ∧ cfg.nonsec_write = false))
    (hmpw : mst.process_wdata_next_cycle = false) :
    ((default_cycle false dst).resp.hResp = HRESP.Failed ∧
     (default_cycle false dst).resp.hReadyOut = HREADYOUT.NotReady ∧
     (default_cycle false
        { default_cycle false dst with
          hready := HREADY.WaitState }).resp.hResp = HRESP.Failed ∧
     (default_cycle false
        { default_cycle false dst with
          hready := HREADY.WaitState }).resp.hReadyOut = HREADYOUT.Ready) ∧
    ((default_cycle false dstIB).resp.hResp = HRESP.Successful ∧
     (default_cycle false dstIB).resp.hReadyOut = HREADYOUT.Ready ∧
     (default_cycle false dstIB).wait_cycles = 0 - 1) ∧
    ((mem_cycle cfg d1 d2 false mst).resp.hResp = HRESP.Failed ∧
     (mem_cycle cfg d1 d2 false mst).resp.hReadyOut = HREADYOUT.NotReady ∧
     (mem_cycle cfg d3 d4 false
        { mem_cycle cfg d1 d2 false mst with
          hready := HREADY.WaitState }).resp.hResp = HRESP.Failed ∧
     (mem_cycle cfg d3 d4 false
        { mem_cycle cfg d1 d2 false mst with
          hready := HREADY.WaitState }).resp.hReadyOut = HREADYOUT.Ready) := by
  obtain ⟨m1, m2, _, _, m5, m6, m7⟩ :=
    secure_denied_first_cycle cfg mst d1 d2 hsec hmr hms hmt1 hmt2 hmn hmdir hmpw
  obtain ⟨n1, n2⟩ :=
    error_second_cycle cfg { mem_cycle cfg d1 d2 false mst with
                             hready := HREADY.WaitState } d3 d4 rfl m6 m5 m7
  refine ⟨⟨?_, ?_, ?_, ?_⟩, ⟨?_, ?_, ?_⟩, m1, m2, n1, n2⟩ <;>
    rcases hit with h | h <;>
    simp [default_cycle, default_process, hdr, hds, hdt1, hdt2, hir, his, h]

/-- C8 witness: the termination sequences at concrete states. -/
theorem c8_two_cycle_error_termination_witness :
    ((default_cycle false
        { command := { hTrans := HTRANS.NonSeq, hSel := HSEL.Sel },
          hready := HREADY.Working }).resp.hResp = HRESP.Failed ∧
     (default_cycle false
        { command := { hTrans := HTRANS.NonSeq, hSel := HSEL.Sel },
          hready := HREADY.Working }).resp.hReadyOut = HREADYOUT.NotReady ∧
     (default_cycle false
        { default_cycle false
            { command := { hTrans := HTRANS.NonSeq, hSel := HSEL.Sel },
              hready := HREADY.Working } with
          hready := HREADY.WaitState }).resp.hResp = HRESP.Failed ∧
     (default_cycle false
        { default_cycle false
            { command := { hTrans := HTRANS.NonSeq, hSel := HSEL.Sel },
              hready := HREADY.Working } with
          hready := HREADY.WaitState }).resp.hReadyOut = HREADYOUT.Ready) ∧
    ((default_cycle false
        { command := { hSel := HSEL.Sel }, hready := HREADY.Working }).resp.hResp
        = HRESP.Successful ∧
     (default_cycle false
        { command := { hSel := HSEL.Sel }, hready := HREADY.Working }).resp.hReadyOut
        = HREADYOUT.Ready ∧
     (default_cycle false
        { command := { hSel := HSEL.Sel }, hready := HREADY.Working }).wait_cycles
        = 0 - 1) ∧
    ((mem_cycle { secure_transfer := true } 0 0 false
        { command := { hTrans := HTRANS.NonSeq, hNonsec := HNONSEC.NonSecure,
                       hSel := HSEL.Sel },
          hready := HREADY.Working }).resp.hResp = HRESP.Failed ∧
     (mem_cycle { secure_transfer := true } 0 0 false
        { command := { hTrans := HTRANS.NonSeq, hNonsec := HNONSEC.NonSecure,
                       hSel := HSEL.Sel },
          hready := HREADY.Working }).resp.hReadyOut = HREADYOUT.NotReady ∧
     (mem_cycle { secure_transfer := true } 0 0 false
        { mem_cycle { secure_transfer := true } 0 0 false
            { command := { hTrans := HTRANS.NonSeq, hNonsec := HNONSEC.NonSecure,
                           hSel := HSEL.Sel },
              hready := HREADY.Working } with
          hready := HREADY.WaitState }).resp.hResp = HRESP.Failed ∧
     (mem_cycle { secure_transfer := true } 0 0 false
        { mem_cycle { secure_transfer := true } 0 0 false
            { command := { hTrans := HTRANS.NonSeq, hNonsec := HNONSEC.NonSecure,
                           hSel := HSEL.Sel },
              hready := HREADY.Working } with
          hready := HREADY.WaitState }).resp.hReadyOut = HREADYOUT.Ready) :=
  c8_two_cycle_error_termination
    { command := { hTrans := HTRANS.NonSeq, hSel := HSEL.Sel },
      hready := HREADY.Working }
    { command := { hSel := HSEL.Sel }, hready := HREADY.Working }
    { secure_transfer := true }
    { command := { hTrans := HTRANS.NonSeq, hNonsec := HNONSEC.NonSecure,
                   hSel := HSEL.Sel },
      hready := HREADY.Working }
    0 0 0 0 rfl rfl (by decide) (by decide) rfl rfl (Or.inl rfl)
    rfl rfl rfl (by decide) (by decide) rfl (Or.inl ⟨rfl, rfl⟩) rfl

/-- C4: the Incr-N 1 KiB boundary check raises on a burst that stays
inside one 1 KiB region.  At `hAddr = 1016`, `Incr8`, byte size, the
beats are 1016..1023, all in region 0, and the last beat address
`1016 + (8-1)*2^0 = 1023` is in the same region as 1016; yet
`_check_fix_incr` raises, because its duplicated `hBurst == HBURST.Incr4`
comparison sends `Incr8` to the `16 * 2^hSize` branch and it tests
`hAddr + N*2^hSize` (one past the burst) instead of the last beat
address. -/
theorem c4_incr_boundary_code_bug :
    check_fix_incr 1016 HBURST.Incr8 0 =
      Except.error "Incrementing burst crosses 1KB boundry" ∧
    (1016 + (8 - 1) * 2 ^ 0) / 1024 = 1016 / 1024 := ⟨rfl, rfl⟩

/-- C3 (P6, burst address law): (i) for an Incr-N burst the k-th entry of
the precomputed expected-address sequence is `addr + k * 2^size`; (ii) for
a Wrap-N burst it is `(addr & ~(N*2^size - 1)) + ((addr % (N*2^size)) +
k*2^size) % (N*2^size)` (the and-not written as `Nat.ldiff`); (iii) on the
first NonSeq beat of a fixed-length burst the tracker stores exactly that
sequence with its first element (the current beat) dropped; (iv) for an
unbounded Incr burst the tracker stores the single next pointer
`addr + 2^size`; (v) an accepted Seq beat at address `a` of an unbounded
Incr burst advances the next pointer to `a + 2^size`. -/
theorem c3_burst_address_law (addr S : Nat) (st : MemSt) (st' : MemSt)
    (w : HWRITE) (p : HPROT) (a : Nat) :
    ((∀ b, (b = HBURST.Incr4 ∨ b = HBURST.Incr8 ∨ b = HBURST.Incr16) →
       ∀ k, k < burstLenMap b →
         (bursting_addresses_full addr b S)[k]? = some (addr + k * 2 ^ S)) ∧
     (∀ b, (b = HBURST.Wrap4 ∨ b = HBURST.Wrap8 ∨ b = HBURST.Wrap16) →
       ∀ k, k < burstLenMap b →
         (bursting_addresses_full addr b S)[k]? =
           some (Nat.ldiff addr (burstLenMap b * 2 ^ S - 1) +
                 (addr % (burstLenMap b * 2 ^ S) + k * 2 ^ S) %
                   (burstLenMap b * 2 ^ S))) ∧
     (∀ b, b ≠ HBURST.Single → b ≠ HBURST.Incr →
       check_not_bursting st addr b S w p = Except.ok st' →
       st'.bursting_addresses = (bursting_addresses_full addr b S).drop 1) ∧
     (check_not_bursting st addr HBURST.Incr S w p = Except.ok st' →
       st'.bursting_addresses = [addr + 2 ^ S] ∧ st'.incr_burst = true) ∧
     (st.bursting = true → st.incr_burst = true →
       st.bursting_addresses = [a] →
       burst_check st a st.burst_type st.burst_size HTRANS.Seq
           st.burst_write st.burst_prot =
         Except.ok { st with
           bursting_addresses := [a + 2 ^ st.burst_size] })) := by
  refine ⟨?_, ?_, ?_, ?_, ?_⟩
  · rintro b (rfl | rfl | rfl) k hk <;>
    · simp only [burstLenMap] at hk
      simp [bursting_addresses_full, burstLenMap]
      rw [List.getElem?_range hk]
  · rintro b (rfl | rfl | rfl) k hk <;>
    · simp only [burstLenMap] at hk
      simp [bursting_addresses_full, burstLenMap]
      rw [List.getElem?_range hk]
      simp
  · intro b hs hi hok
    unfold check_not_bursting at hok
    rcases hfix : (if b = HBURST.Incr4 ∨ b = HBURST.Incr8 ∨ b = HBURST.Incr16
                   then check_fix_incr addr b S else Except.ok ()) with e | u
    · rw [hfix] at hok; cases hok
    · rw [hfix] at hok
      dsimp only at hok
      rw [if_pos hs, if_pos hi] at hok
      injection hok with h
      rw [← h]
  · intro hok
    simp [check_not_bursting] at hok
    rw [← hok]
    exact ⟨rfl, rfl⟩
  · intro hb hi hl
    simp [burst_check, hb, hi, hl]

/-- C3 witness: the burst address law evaluated on the Incr16 burst at
964 (`0x3C4`), the Wrap4 burst at 20, and a Seq advance of an unbounded
Incr burst. -/
theorem c3_burst_address_law_witness :
    (bursting_addresses_full 964 HBURST.Incr16 2)[15]? = some (964 + 15 * 2 ^ 2) ∧
    (bursting_addresses_full 20 HBURST.Wrap4 2)[3]? =
      some (Nat.ldiff 20 (burstLenMap HBURST.Wrap4 * 2 ^ 2 - 1) +
            (20 % (burstLenMap HBURST.Wrap4 * 2 ^ 2) + 3 * 2 ^ 2) %
              (burstLenMap HBURST.Wrap4 * 2 ^ 2)) ∧
    burst_check { bursting := true, incr_burst := true,
                  bursting_addresses := [8], burst_size := 2,
                  burst_type := HBURST.Incr } 8 HBURST.Incr 2 HTRANS.Seq
        HWRITE.Read {} =
      Except.ok { ({ bursting := true, incr_burst := true,
                     bursting_addresses := [8], burst_size := 2,
                     burst_type := HBURST.Incr } : MemSt) with
                  bursting_addresses := [8 + 2 ^ 2] } :=
  ⟨(c3_burst_address_law 964 2 {} {} HWRITE.Read {} 0).1 HBURST.Incr16
      (by decide) 15 (by decide),
   (c3_burst_address_law 20 2 {} {} HWRITE.Read {} 0).2.1 HBURST.Wrap4
      (by decide) 3 (by decide),
   (c3_burst_address_law 0 0
      { bursting := true, incr_burst := true, bursting_addresses := [8],
        burst_size := 2, burst_type := HBURST.Incr } {} HWRITE.Read {}
      8).2.2.2.2 rfl rfl rfl⟩

/-- C1: after an exclusive write whose reservation check fails, a
subsequent plain non-exclusive byte write of `0xAB` to address 0 leaves
the byte unwritten (it reads 0), not `(0xAB >> 8*(0 + 0 mod 4)) & 0xFF`
as the claim requires for every non-exclusive write: line 297 of
`SimMem1PSubordinate.py` assigns the misspelled, never-read attribute
`no_colision`, so `no_collision` is never reset to `True` and every later
write is skipped. -/
theorem c1_nonexclusive_write_skipped_code_bug :
    c1_exec.toOption.map (fun s => readByte s.mem 0) = some 0 ∧
    c1_exec.toOption.map (fun s => readByte s.mem 0) ≠
      some ((171 >>> (8 * (0 + 0 % 4))) &&& (2 ^ 8 - 1)) := by
  exact ⟨by decide, by decide⟩

/-- C7 counterexample: a reachable state in which address 1 is watched
while the reservation set is empty, so no reservation tuple's byte range
covers it -- the claimed iff fails.  The state arises from an exclusive
halfword read at 0 followed by a plain byte write at 0: the collision
update removes only the touched byte 0 from `watched` while migrating the
whole covering reservation to `failed`, stranding byte 1. -/
theorem c7_reverse_index_counterexample :
    c7_exec.toOption.map
        (fun s => (s.watched_addresses, s.transaction_set)) =
      some ({1}, (∅ : Finset TransId)) := by
  decide

/-- Membership in the watched-set fold of `process_exclusive_transfer`'s
exclusive-read branch. -/
theorem mem_foldl_insert_range (n base : Nat) (w : Finset Nat) (x : Nat) :
    x ∈ (List.range n).foldl (fun w j => insert (base + j) w) w ↔
      x ∈ w ∨ ∃ j, j < n ∧ x = base + j := by
  induction n generalizing w with
  | zero => simp
  | succ m ih =>
    rw [List.range_succ, List.foldl_append]
    simp only [List.foldl_cons, List.foldl_nil]
    rw [Finset.mem_insert, ih]
    constructor
    · rintro (rfl | hx | ⟨j, hj, rfl⟩)
      · exact Or.inr ⟨m, Nat.lt_succ_self m, rfl⟩
      · exact Or.inl hx
      · exact Or.inr ⟨j, Nat.lt_succ_of_lt hj, rfl⟩
    · rintro (hx | ⟨j, hj, rfl⟩)
      · exact Or.inr (Or.inl hx)
      · rcases Nat.lt_succ_iff_lt_or_eq.mp hj with h | rfl
        · exact Or.inr (Or.inr ⟨j, h, rfl⟩)
        · exact Or.inl rfl

/-- The collision update preserves the forward invariant: it removes one
byte from `watched` but also removes every reservation covering that
byte. -/
theorem reservedCovered_update (st : MemSt) (x : Nat)
    (h : reservedCoveredSt st) :
    reservedCoveredSt (exclusive_trans_colision_update st x) := by
  intro t ht a h1 h2
  simp only [exclusive_trans_colision_update, Finset.mem_sdiff,
             Finset.mem_filter] at ht
  obtain ⟨hts, hrm⟩ := ht
  refine Finset.mem_erase.mpr ⟨?_, h t hts a h1 h2⟩
  intro hax
  exact hrm ⟨hts, hax ▸ h1, hax ▸ h2⟩

/-- `process_exclusive_transfer` preserves the forward invariant: an
exclusive read inserts the new tuple together with its whole byte range,
the other branches leave both sets unchanged. -/
theorem reservedCovered_excl (cfg : MemCfg) (st : MemSt)
    (h : reservedCoveredSt st) :
    reservedCoveredSt (process_exclusive_transfer cfg st) := by
  unfold process_exclusive_transfer
  split
  case isFalse => exact h
  case isTrue =>
    lift_lets
    extract_lets s1 tid src
    split
    case isFalse => exact h
    case isTrue =>
      split
      · -- exclusive read: tuple and its byte range are both inserted
        intro t ht a h1 h2
        refine Iff.mpr
          (mem_foldl_insert_range (2 ^ s1.command.hSize) s1.command.hAddr
            s1.watched_addresses a) ?_
        rcases Finset.mem_insert.mp ht with rfl | ht'
        · have h1' : s1.command.hAddr ≤ a := h1
          have h2' : a < s1.command.hAddr + 2 ^ s1.command.hSize := h2
          exact Or.inr ⟨a - s1.command.hAddr, by omega, by omega⟩
        · exact Or.inl (h t ht' a h1 h2)
      · -- exclusive write: the monitor sets are untouched
        split
        · exact h
        · exact h

/-- One `process_write` loop iteration preserves the forward
invariant (the memory write itself does not touch the monitor sets). -/
theorem reservedCovered_pw_step (cfg : MemCfg) (st : MemSt) (i : Nat)
    (h : reservedCoveredSt st) :
    reservedCoveredSt (process_write_step cfg st i) := by
  unfold process_write_step
  lift_lets
  extract_lets off a pair s1 mask v
  have hp : reservedCoveredSt s1 := by
    unfold s1 pair
    split
    · dsimp only
      split
      · exact reservedCovered_update st _ h
      · exact h
    · exact h
  split
  · split
    · exact hp
    · exact hp
  · exact hp

/-- `process_write` preserves the forward invariant. -/
theorem reservedCovered_process_write (cfg : MemCfg) (st : MemSt)
    (h : reservedCoveredSt st) :
    reservedCoveredSt (process_write cfg st) := by
  unfold process_write
  generalize List.range (2 ^ st.wcommand.hSize) = l
  have h0 : reservedCoveredSt
      ({ st with process_wdata_next_cycle := false }) := h
  generalize ({ st with process_wdata_next_cycle := false } : MemSt) = s at h0
  induction l generalizing s with
  | nil => exact h0
  | cons x xs ih => exact ih _ (reservedCovered_pw_step cfg s x h0)

/-- `process_secure_transfer` preserves the forward invariant (it only
sets the error flag). -/
theorem reservedCovered_secure (cfg : MemCfg) (st : MemSt)
    (h : reservedCoveredSt st) :
    reservedCoveredSt (process_secure_transfer cfg st) := by
  unfold process_secure_transfer
  split
  · split
    · split
      · exact h
      · split
        · exact h
        · exact h
    · exact h
  · exact h

/-- `process` preserves the forward invariant. -/
theorem reservedCovered_process (cfg : MemCfg) (d1 d2 : Nat) (st : MemSt)
    (h : reservedCoveredSt st) :
    reservedCoveredSt (process cfg d1 d2 st) := by
  unfold process
  lift_lets
  extract_lets t1 m1 t2 m2 m3 m4
  have hm1 : reservedCoveredSt m1 := h
  have hm2 : reservedCoveredSt m2 := by
    unfold m2
    split
    · exact hm1
    · exact hm1
  have hm3 : reservedCoveredSt m3 := by
    unfold m3
    exact reservedCovered_secure cfg m2 hm2
  have hm4 : reservedCoveredSt m4 := by
    unfold m4
    exact reservedCovered_excl cfg m3 hm3
  split
  · exact hm3
  · split
    · exact hm4
    · split
      · exact hm4
      · exact hm4

/-- `do_reset` preserves (indeed re-establishes) the forward invariant. -/
theorem reservedCovered_reset (cfg : MemCfg) (st : MemSt)
    (h : reservedCoveredSt st) :
    reservedCoveredSt (do_reset cfg st) := by
  unfold do_reset
  lift_lets
  extract_lets s1 s2
  have hs : reservedCoveredSt s2 := by
    unfold s2
    split
    · intro t ht
      exact absurd ht (Finset.not_mem_empty t)
    · exact h
  exact hs

/-- One `start`-loop iteration preserves the forward invariant. -/
theorem reservedCovered_cycle (cfg : MemCfg) (d1 d2 : Nat) (r : Bool)
    (st : MemSt) (h : reservedCoveredSt st) :
    reservedCoveredSt (mem_cycle cfg d1 d2 r st) := by
  unfold mem_cycle
  lift_lets
  extract_lets t0 s0 sa sb tb s1 t1 s2 t2 s3
  have h0 : reservedCoveredSt s0 := h
  have hsa : reservedCoveredSt sa := by
    unfold sa
    split
    · exact reservedCovered_process_write cfg s0 h0
    · exact h0
  have hsb : reservedCoveredSt sb := by
    unfold sb
    exact reservedCovered_process cfg d1 d2 sa hsa
  have hs1 : reservedCoveredSt s1 := by
    unfold s1
    split
    · exact reservedCovered_reset cfg s0 h0
    · split
      · split
        · exact hsb
        · exact hsb
      · exact h0
  have hs2 : reservedCoveredSt s2 := by
    unfold s2
    split
    · split
      · exact hs1
      · exact hs1
    · exact hs1
  have hs3 : reservedCoveredSt s3 := by
    unfold s3
    split
    · exact hs2
    · exact hs2
  exact hs3

/-- `_check_not_bursting` never touches the exclusive-monitor sets. -/
theorem check_not_bursting_monitor {st st' : MemSt} {a : Nat} {b : HBURST}
    {s : HSIZE} {w : HWRITE} {p : HPROT}
    (h : check_not_bursting st a b s w p = Except.ok st') :
    st'.transaction_set = st.transaction_set ∧
    st'.watched_addresses = st.watched_addresses := by
  unfold check_not_bursting at h
  split at h
  · exact Except.noConfusion h
  · split at h
    · split at h
      · injection h with h'
        subst h'
        exact ⟨rfl, rfl⟩
      · injection h with h'
        subst h'
        exact ⟨rfl, rfl⟩
    · injection h with h'
      subst h'
      exact ⟨rfl, rfl⟩

/-- `burst_check` never touches the exclusive-monitor sets. -/
theorem burst_check_monitor {st st' : MemSt} {a : Nat} {b : HBURST}
    {s : HSIZE} {t : HTRANS} {w : HWRITE} {p : HPROT}
    (h : burst_check st a b s t w p = Except.ok st') :
    st'.transaction_set = st.transaction_set ∧
    st'.watched_addresses = st.watched_addresses := by
  cases t <;> cases hb : st.bursting <;> simp [burst_check, hb] at h
  case NonSeq.false => exact check_not_bursting_monitor h
  case NonSeq.true => exact check_not_bursting_monitor h
  all_goals repeat' split at h
  all_goals
    first
      | exact Except.noConfusion h
      | (subst h; exact ⟨rfl, rfl⟩)
      | (injection h with h'; subst h'; exact ⟨rfl, rfl⟩)

/-- `put_cmd` never touches the exclusive-monitor sets (it only latches
the command and runs the raising checks). -/
theorem put_cmd_monitor {cfg : MemCfg} {st st' : MemSt} {c : ICMD}
    (h : put_cmd cfg st c = Except.ok st') :
    st'.transaction_set = st.transaction_set ∧
    st'.watched_addresses = st.watched_addresses := by
  unfold put_cmd at h
  lift_lets at h
  extract_lets inp st0 st1 at h
  split at h
  · injection h with h'
    subst h'
    exact ⟨rfl, rfl⟩
  · split at h
    · split at h
      · exact Except.noConfusion h
      · split at h
        · exact Except.noConfusion h
        · split at h
          next e heq => exact Except.noConfusion h
          next st2 heq =>
            split at h
            next e2 heq2 => exact Except.noConfusion h
            next u heq2 =>
              injection h with h'
              subst h'
              split at heq
              · have hm := burst_check_monitor heq
                exact hm
              · injection heq with h''
                subst h''
                exact ⟨rfl, rfl⟩
    · injection h with h'
      subst h'
      exact ⟨rfl, rfl⟩

/-- C7 amended: in every reachable state, every reservation tuple's byte
range is contained in the watched set (the forward direction of the
claimed iff; the converse fails, see the counterexample). -/
theorem c7_reverse_index_amended (cfg : MemCfg) (st : MemSt)
    (h : Reach cfg st) :
    reservedCovered st.transaction_set st.watched_addresses := by
  induction h with
  | init =>
    intro t ht
    exact absurd ht (Finset.not_mem_empty t)
  | ready_step _ ih => exact ih
  | data_step _ ih => exact ih
  | cmd_step _ heq ih =>
    obtain ⟨hts, hw⟩ := put_cmd_monitor heq
    intro t ht a h1 h2
    rw [hw]
    rw [hts] at ht
    exact ih t ht a h1 h2
  | process_step _ ih => exact reservedCovered_process _ _ _ _ ih
  | write_step _ ih => exact reservedCovered_process_write _ _ ih
  | cycle_step _ ih => exact reservedCovered_cycle _ _ _ _ _ ih
  | reset_step _ ih => exact reservedCovered_reset _ _ ih

/-- C7 amended, witness: after the exclusive halfword read at 0 both
reserved bytes are watched; shown for byte 1 via the invariant at the
reachable post-`put_cmd`, post-cycle state. -/
theorem c7_reverse_index_amended_witness :
    1 ∈ (mem_cycle xcfg 0 0 false c7w_s1).watched_addresses :=
  c7_reverse_index_amended xcfg (mem_cycle xcfg 0 0 false c7w_s1)
    (Reach.cycle_step
      (Reach.cmd_step (Reach.ready_step Reach.init)
        (show put_cmd xcfg (set_ready (initMemSt xcfg) HREADY.Working)
            c7_cmd_r = Except.ok c7w_s1 from rfl)))
    (0, 1, {}, HBURST.Single, 0, HNONSEC.Secure) (by decide) 1
    (by decide) (by decide)

/-- Bits below `k` of `2^k * b + x` come from `x`. -/
theorem testBit_two_pow_mul_add_low {x k j : Nat} (hj : j < k) (b : Nat) :
    Nat.testBit (2 ^ k * b + x) j = Nat.testBit x j := by
  rw [Nat.testBit_to_div_mod, Nat.testBit_to_div_mod]
  have hk : 2 ^ k = 2 ^ j * 2 ^ (k - j) := by
    rw [← pow_add]
    congr 1
    omega
  have hkj : 2 ^ (k - j) = 2 * 2 ^ (k - j - 1) := by
    rw [← pow_succ']
    congr 1
    omega
  rw [hk, Nat.mul_assoc, Nat.mul_add_div (Nat.two_pow_pos j), hkj,
      Nat.mul_assoc, Nat.mul_add_mod]

/-- Bits at or above `k` of `2^k * b + x` come from `b` when `x < 2^k`. -/
theorem testBit_two_pow_mul_add_high {x k j : Nat} (hx : x < 2 ^ k)
    (hj : k ≤ j) (b : Nat) :
    Nat.testBit (2 ^ k * b + x) j = Nat.testBit b (j - k) := by
  rw [Nat.testBit_to_div_mod, Nat.testBit_to_div_mod]
  have hk : 2 ^ j = 2 ^ k * 2 ^ (j - k) := by
    rw [← pow_add]
    congr 1
    omega
  rw [hk, ← Nat.div_div_eq_div_mul, Nat.mul_add_div (Nat.two_pow_pos k),
      Nat.div_eq_of_lt hx, Nat.add_zero]

/-- ORing a value below `2^k` with a `k`-shifted value is addition (the
bit ranges are disjoint). -/
theorem lor_eq_add_shift {x k : Nat} (hx : x < 2 ^ k) (b : Nat) :
    x ||| (b <<< k) = b <<< k + x := by
  apply Nat.eq_of_testBit_eq
  intro j
  rw [Nat.testBit_or, Nat.testBit_shiftLeft,
      show b <<< k + x = 2 ^ k * b + x by rw [Nat.shiftLeft_eq]; ring_nf]
  by_cases hj : j < k
  · rw [testBit_two_pow_mul_add_low hj]
    have h1 : decide (j ≥ k) = false := by
      simp only [decide_eq_false_iff_not]
      omega
    rw [h1, Bool.false_and, Bool.or_false]
  · have hj' : k ≤ j := by omega
    rw [testBit_two_pow_mul_add_high hx hj']
    have h1 : decide (j ≥ k) = true := by
      simp only [decide_eq_true_eq]
      omega
    rw [h1, Bool.true_and,
        Nat.testBit_lt_two_pow (lt_of_lt_of_le hx (Nat.pow_le_pow_right (by omega) hj')),
        Bool.false_or]

/-- `x &&& 2^p` isolates bit `p`. -/
theorem and_two_pow_eq (x p : Nat) :
    x &&& 2 ^ p = (Nat.testBit x p).toNat * 2 ^ p := by
  apply Nat.eq_of_testBit_eq
  intro j
  rw [Nat.testBit_and]
  by_cases hj : p = j
  · subst hj
    cases hx : x.testBit p <;> simp [hx, Nat.testBit_two_pow_self]
  · rw [Nat.testBit_two_pow_of_ne hj]
    cases hx : x.testBit p <;> simp [Nat.testBit_two_pow_of_ne hj]

/-- The strobe test of `process_write` is the strobe bit itself. -/
theorem strobe_test_iff (w p : Nat) :
    (w &&& (1 <<< p) ≠ 0) ↔ Nat.testBit w p = true := by
  rw [Nat.shiftLeft_eq, one_mul, and_two_pow_eq]
  cases h : Nat.testBit w p <;> simp [Nat.pos_iff_ne_zero.mp (Nat.two_pow_pos p)]

/-- The OR-accumulating byte-lane fold of `compose_read` is a sum of
disjoint byte fields, bounded by the next lane. -/
theorem foldl_or_bytes (f : Nat → Nat) (off : Nat) (n : Nat)
    (hf : ∀ i, i < n → f i < 256) :
    (List.range n).foldl (fun acc i => acc ||| (f i <<< (8 * (i + off)))) 0 =
      (∑ i in Finset.range n, f i * 2 ^ (8 * (i + off))) ∧
    (∑ i in Finset.range n, f i * 2 ^ (8 * (i + off))) < 2 ^ (8 * (n + off)) := by
  induction n with
  | zero =>
    refine ⟨by simp, ?_⟩
    simp only [Finset.range_zero, Finset.sum_empty]
    exact Nat.two_pow_pos _
  | succ m ih =>
    obtain ⟨ih1, ih2⟩ := ih (fun i hi => hf i (Nat.lt_succ_of_lt hi))
    have hb : f m ≤ 255 := Nat.lt_succ_iff.mp (hf m (Nat.lt_succ_self m))
    constructor
    · rw [List.range_succ, List.foldl_append, List.foldl_cons, List.foldl_nil,
          ih1, Finset.sum_range_succ, lor_eq_add_shift ih2 (f m),
          Nat.shiftLeft_eq]
      ring
    · rw [Finset.sum_range_succ]
      have h2 : 2 ^ (8 * (m + 1 + off)) = 256 * 2 ^ (8 * (m + off)) := by
        rw [show 8 * (m + 1 + off) = 8 + 8 * (m + off) by ring, pow_add]
        norm_num
      have h3 : f m * 2 ^ (8 * (m + off)) ≤ 255 * 2 ^ (8 * (m + off)) :=
        Nat.mul_le_mul_right _ hb
      omega

/-- The strobe mask of one `process_write` iteration. -/
def strobeMask (cfg : MemCfg) (wc : ICMD) (i : Nat) : Nat :=
  if cfg.write_strobe then
    (2 ^ 8 - 1) *
      (if wc.hWstrb &&& (1 <<< (i + wc.hAddr % cfg.bus_byte_width)) ≠ 0 then 1 else 0)
  else 2 ^ 8 - 1

/-- With exclusives disabled, one `process_write` iteration is a pure
conditional memory update. -/
theorem pw_step_no_excl (cfg : MemCfg) (s : MemSt) (i : Nat)
    (hx : cfg.exclusive_transfers = false) :
    process_write_step cfg s i =
      (if (s.mem (i + s.wcommand.hAddr)).isNone ∨ strobeMask cfg s.wcommand i ≠ 0 then
        { s with mem := Function.update s.mem (i + s.wcommand.hAddr) (some ((s.wdata >>> (8 * (i + s.wcommand.hAddr % cfg.bus_byte_width))) &&& strobeMask cfg s.wcommand i)) }
       else s) := by
  simp [process_write_step, strobeMask, hx]

/-- While folding the `process_write` loop over an initially empty memory
with exclusives disabled: the latched write command and data stay fixed,
untouched addresses stay empty, and the first `n` target bytes hold the
masked data-word bytes. -/
theorem pw_fold_mem (cfg : MemCfg) (s0 : MemSt)
    (hx : cfg.exclusive_transfers = false)
    (hmem : ∀ a, s0.mem a = none) (n : Nat) :
    ((List.range n).foldl (process_write_step cfg) s0).wcommand = s0.wcommand ∧
    (∀ a, (∀ i, i < n → a ≠ i + s0.wcommand.hAddr) →
      ((List.range n).foldl (process_write_step cfg) s0).mem a = s0.mem a) ∧
    (∀ i, i < n →
      ((List.range n).foldl (process_write_step cfg) s0).mem
          (i + s0.wcommand.hAddr) =
        some ((s0.wdata >>> (8 * (i + s0.wcommand.hAddr % cfg.bus_byte_width))) &&&
          strobeMask cfg s0.wcommand i)) := by
  induction n with
  | zero =>
    exact ⟨rfl, fun a _ => rfl, fun i hi => absurd hi (Nat.not_lt_zero i)⟩
  | succ m ih =>
    obtain ⟨ih1, ih2, ih3⟩ := ih
    rw [List.range_succ, List.foldl_append, List.foldl_cons, List.foldl_nil]
    set F := (List.range m).foldl (process_write_step cfg) s0 with hF
    have hFw : F.wdata = s0.wdata := by
      clear ih1 ih2 ih3
      rw [hF]
      clear hF
      induction m with
      | zero => rfl
      | succ k ihk =>
        rw [List.range_succ, List.foldl_append, List.foldl_cons, List.foldl_nil,
            pw_step_no_excl cfg _ _ hx]
        split
        · exact ihk
        · exact ihk
    have hFm : F.mem (m + s0.wcommand.hAddr) = none := by
      rw [ih2 (m + s0.wcommand.hAddr) (fun i hi hne => by omega)]
      exact hmem _
    rw [pw_step_no_excl cfg F m hx, ih1]
    have hcond : (F.mem (m + s0.wcommand.hAddr)).isNone = true ∨
        strobeMask cfg s0.wcommand m ≠ 0 := Or.inl (by rw [hFm]; rfl)
    rw [if_pos hcond]
    refine ⟨rfl, ?_, ?_⟩
    · intro a ha
      have ham : a ≠ m + s0.wcommand.hAddr := ha m (Nat.lt_succ_self m)
      show Function.update F.mem (m + s0.wcommand.hAddr) _ a = s0.mem a
      rw [Function.update_noteq ham]
      exact ih2 a (fun i hi => ha i (Nat.lt_succ_of_lt hi))
    · intro i hi
      rcases Nat.lt_succ_iff_lt_or_eq.mp hi with hlt | rfl
      · have hne : i + s0.wcommand.hAddr ≠ m + s0.wcommand.hAddr := by omega
        show Function.update F.mem (m + s0.wcommand.hAddr) _ (i + s0.wcommand.hAddr) =
          _
        rw [Function.update_noteq hne]
        exact ih3 i hlt
      · show Function.update F.mem (i + s0.wcommand.hAddr) _ (i + s0.wcommand.hAddr) =
          _
        rw [Function.update_same, hFw]

/-- C2 (P4, write-read round trip): with exclusives disabled and a fresh
(empty) memory, applying `process_write` for an aligned latched write and
then composing the read data for a read of the same address and size
yields exactly the written word masked by the write strobes, each byte
placed at lane offset `8 * (hAddr mod bus_byte_width + i)`; strobed-out
and never-written bytes read as zero. -/
theorem c2_write_read_round_trip (cfg : MemCfg) (st : MemSt) (rcmd : ICMD)
    (hx : cfg.exclusive_transfers = false)
    (hmem : ∀ a, st.mem a = none)
    (halign : st.wcommand.hAddr % 2 ^ st.wcommand.hSize = 0)
    (hra : rcmd.hAddr = st.wcommand.hAddr)
    (hrs : rcmd.hSize = st.wcommand.hSize) :
    compose_read cfg rcmd (process_write cfg st).mem =
      ∑ i in Finset.range (2 ^ st.wcommand.hSize),
        (if cfg.write_strobe = false ∨
            Nat.testBit st.wcommand.hWstrb
              (i + st.wcommand.hAddr % cfg.bus_byte_width) = true then
          (st.wdata >>> (8 * (st.wcommand.hAddr % cfg.bus_byte_width + i))) % 2 ^ 8
         else 0) * 2 ^ (8 * (st.wcommand.hAddr % cfg.bus_byte_width + i)) := by
  have h3' : ∀ i, i < 2 ^ st.wcommand.hSize →
      (process_write cfg st).mem (i + st.wcommand.hAddr) =
        some ((st.wdata >>> (8 * (i + st.wcommand.hAddr % cfg.bus_byte_width))) &&&
          strobeMask cfg st.wcommand i) :=
    (pw_fold_mem cfg { st with process_wdata_next_cycle := false } hx hmem
      (2 ^ st.wcommand.hSize)).2.2
  have hbyte : ∀ i, i < 2 ^ st.wcommand.hSize →
      readByte (process_write cfg st).mem (i + st.wcommand.hAddr) =
        (if cfg.write_strobe = false ∨
            Nat.testBit st.wcommand.hWstrb
              (i + st.wcommand.hAddr % cfg.bus_byte_width) = true then
          (st.wdata >>> (8 * (st.wcommand.hAddr % cfg.bus_byte_width + i))) % 2 ^ 8
         else 0) := by
    intro i hi
    unfold readByte
    rw [h3' i hi, Option.getD_some]
    unfold strobeMask
    by_cases hws : cfg.write_strobe = true
    · rw [if_pos hws]
      by_cases hbit : Nat.testBit st.wcommand.hWstrb
          (i + st.wcommand.hAddr % cfg.bus_byte_width) = true
      · rw [if_pos ((strobe_test_iff _ _).mpr hbit), mul_one,
            Nat.and_pow_two_sub_one_eq_mod, if_pos (Or.inr hbit),
            Nat.add_comm i (st.wcommand.hAddr % cfg.bus_byte_width)]
      · rw [if_neg (fun hc => hbit ((strobe_test_iff _ _).mp hc)), mul_zero,
            Nat.and_zero, if_neg (by simp [hws, hbit])]
    · have hws' : cfg.write_strobe = false := by
        revert hws
        cases cfg.write_strobe <;> simp
      rw [if_neg hws, Nat.and_pow_two_sub_one_eq_mod, if_pos (Or.inl hws'),
          Nat.add_comm i (st.wcommand.hAddr % cfg.bus_byte_width)]
  have hf : ∀ i, i < 2 ^ st.wcommand.hSize →
      readByte (process_write cfg st).mem (i + st.wcommand.hAddr) < 256 := by
    intro i hi
    rw [hbyte i hi]
    split
    · exact Nat.mod_lt _ (by norm_num)
    · norm_num
  have key := foldl_or_bytes
    (fun i => readByte (process_write cfg st).mem (i + st.wcommand.hAddr))
    (st.wcommand.hAddr % cfg.bus_byte_width) (2 ^ st.wcommand.hSize) hf
  simp only [compose_read]
  rw [hrs, hra, key.1]
  refine Finset.sum_congr rfl ?_
  intro i hi
  simp only [hbyte i (Finset.mem_range.mp hi),
      Nat.add_comm i (st.wcommand.hAddr % cfg.bus_byte_width)]

/-- C2 witness: word write of `0x12345678` at address 4 with strobe
`0b0101`, read back as a word at 4. -/
theorem c2_write_read_round_trip_witness :
    compose_read { write_strobe := true }
        { hAddr := 4, hSize := 2, hTrans := HTRANS.NonSeq, hSel := HSEL.Sel }
        (process_write { write_strobe := true }
          { wcommand := { hAddr := 4, hSize := 2, hWstrb := 5,
                          hWrite := HWRITE.Write, hSel := HSEL.Sel },
            wdata := 305419896 }).mem =
      ∑ i in Finset.range (2 ^ 2),
        (if (true = false) ∨ Nat.testBit 5 (i + 4 % 4) = true then
          (305419896 >>> (8 * (4 % 4 + i))) % 2 ^ 8
         else 0) * 2 ^ (8 * (4 % 4 + i)) :=
  c2_write_read_round_trip { write_strobe := true }
    { wcommand := { hAddr := 4, hSize := 2, hWstrb := 5,
                    hWrite := HWRITE.Write, hSel := HSEL.Sel },
      wdata := 305419896 }
    { hAddr := 4, hSize := 2, hTrans := HTRANS.NonSeq, hSel := HSEL.Sel }
    rfl (fun _ => rfl) rfl rfl rfl

end CocotbAHB
